import Mathlib

/-!
Shallow embedding of `src/pusher/config.py` (pusher-rest-python): the
`Config` credential holder, its constructors, the subscription
authenticator and the webhook validator, together with the fallback
`compare_digest` and models of the external collaborators (HMAC-SHA256,
UTF-8 encoding, JSON codec, channel-name predicate).

Python dynamic values and exceptions are made explicit: functions that can
raise return `Except PyErr _`, and arguments whose runtime type the code
inspects are passed as `PyVal`.
-/

/-- Python exceptions raised by the embedded code. -/
inductive PyErr where
  | typeError
  | valueError
  | attributeError
  | unparsableUrl
  | envMissing
  deriving DecidableEq, Repr

/-- Dynamic Python values, for arguments whose runtime type the source
inspects with `isinstance` (key, secret, ssl, port). -/
inductive PyVal where
  | vnone
  | vstr (s : String)
  | vint (n : Int)
  | vbool (b : Bool)
  deriving DecidableEq, Repr

/-- Python truthiness of a `PyVal` (`if port:` and friends). -/
def pyTruthyV : PyVal → Bool
  | .vnone => false
  | .vstr s => s ≠ ""
  | .vint n => n ≠ 0
  | .vbool b => b

/-- `isinstance(x, six.text_type)`. -/
def isText : PyVal → Bool
  | .vstr _ => true
  | _ => false

/-- `isinstance(x, six.integer_types)`; Python `bool` is a subclass of
`int`, so booleans count as integers. -/
def isIntType : PyVal → Bool
  | .vint _ => true
  | .vbool _ => true
  | _ => false

/-- `isinstance(x, bool)`. -/
def isBoolType : PyVal → Bool
  | .vbool _ => true
  | _ => false

/-- The integer value of a truthy int-like `PyVal` (Python `True == 1`). -/
def pyIntValue : PyVal → Int
  | .vint n => n
  | .vbool b => if b then 1 else 0
  | _ => 0

/-- The `Config` object state after a successful `Config.__init__`. -/
structure Config where
  app_id : String
  key : String
  secret : String
  host : String
  port : Int
  ssl : Bool
  deriving DecidableEq, Repr

/-- `Config.__init__` from `src/pusher/config.py` lines 42-79.  `key`,
`secret`, `ssl` and `port` are dynamic values checked with `isinstance`;
`host` and `cluster` are optional strings (`None` or text).  Returns the
constructed object or the raised `TypeError`. -/
def Config.init (app_id : String) (key secret : PyVal) (ssl : PyVal := .vbool false)
    (host : Option String := none) (port : PyVal := .vnone)
    (cluster : Option String := none) : Except PyErr Config :=
  if ¬ isText key then .error .typeError
  else if ¬ isText secret then .error .typeError
  else if pyTruthyV port ∧ ¬ isIntType port then .error .typeError
  else if ¬ isBoolType ssl then .error .typeError
  else
    let keyS := match key with | .vstr s => s | _ => ""
    let secretS := match secret with | .vstr s => s | _ => ""
    let sslB := match ssl with | .vbool b => b | _ => false
    let hostS :=
      match host with
      | some h =>
        if h ≠ "" then h
        else
          match cluster with
          | some c => if c ≠ "" then "api-" ++ c ++ ".pusher.com" else "api.pusherapp.com"
          | none => "api.pusherapp.com"
      | none =>
        match cluster with
        | some c => if c ≠ "" then "api-" ++ c ++ ".pusher.com" else "api.pusherapp.com"
        | none => "api.pusherapp.com"
    let portI := if pyTruthyV port then pyIntValue port else (if sslB then 443 else 80)
    .ok { app_id := app_id, key := keyS, secret := secretS,
          host := hostS, port := portI, ssl := sslB }

/-- `Config.scheme` property. -/
def Config.scheme (c : Config) : String :=
  if c.ssl then "https" else "http"

/-! ### SHA-256 and HMAC (models of the `hashlib` / `hmac` collaborators)

`hashlib.sha256` and `hmac.new(..., hashlib.sha256)` are Python standard
library collaborators; they are implemented here in full (FIPS 180-4 /
RFC 2104) over byte lists, with 32-bit words as `Nat` reduced `% 2 ^ 32`. -/

/-- Right rotation of a 32-bit word. -/
def rotr32 (n x : Nat) : Nat := x / 2 ^ n + x % 2 ^ n * 2 ^ (32 - n)

/-- Bitwise complement within 32 bits. -/
def not32 (x : Nat) : Nat := Nat.xor 0xffffffff x

def ch32 (e f g : Nat) : Nat := Nat.xor (Nat.land e f) (Nat.land (not32 e) g)

def maj32 (a b c : Nat) : Nat :=
  Nat.xor (Nat.xor (Nat.land a b) (Nat.land a c)) (Nat.land b c)

def bsig0 (x : Nat) : Nat := Nat.xor (Nat.xor (rotr32 2 x) (rotr32 13 x)) (rotr32 22 x)

def bsig1 (x : Nat) : Nat := Nat.xor (Nat.xor (rotr32 6 x) (rotr32 11 x)) (rotr32 25 x)

def ssig0 (x : Nat) : Nat := Nat.xor (Nat.xor (rotr32 7 x) (rotr32 18 x)) (x / 2 ^ 3)

def ssig1 (x : Nat) : Nat := Nat.xor (Nat.xor (rotr32 17 x) (rotr32 19 x)) (x / 2 ^ 10)

/-- The SHA-256 round constants. -/
def kConstants : List Nat :=
  [1116352408, 1899447441, 3049323471, 3921009573,
   961987163, 1508970993, 2453635748, 2870763221,
   3624381080, 310598401, 607225278, 1426881987,
   1925078388, 2162078206, 2614888103, 3248222580,
   3835390401, 4022224774, 264347078, 604807628,
   770255983, 1249150122, 1555081692, 1996064986,
   2554220882, 2821834349, 2952996808, 3210313671,
   3336571891, 3584528711, 113926993, 338241895,
   666307205, 773529912, 1294757372, 1396182291,
   1695183700, 1986661051, 2177026350, 2456956037,
   2730485921, 2820302411, 3259730800, 3345764771,
   3516065817, 3600352804, 4094571909, 275423344,
   430227734, 506948616, 659060556, 883997877,
   958139571, 1322822218, 1537002063, 1747873779,
   1955562222, 2024104815, 2227730452, 2361852424,
   2428436474, 2756734187, 3204031479, 3329325298]

/-- The eight SHA-256 working variables. -/
structure Hash8 where
  a : Nat
  b : Nat
  c : Nat
  d : Nat
  e : Nat
  f : Nat
  g : Nat
  h : Nat
  deriving Repr

/-- The SHA-256 initial hash value. -/
def sha256init : Hash8 :=
  ⟨1779033703, 3144134277,
   1013904242, 2773480762,
   1359893119, 2600822924,
   528734635, 1541459225⟩

/-- One SHA-256 round, consuming a `(round constant, schedule word)` pair. -/
def compressRound (s : Hash8) (kw : Nat × Nat) : Hash8 :=
  let temp1 := (s.h + bsig1 s.e + ch32 s.e s.f s.g + kw.1 + kw.2) % 2 ^ 32
  let temp2 := (bsig0 s.a + maj32 s.a s.b s.c) % 2 ^ 32
  ⟨(temp1 + temp2) % 2 ^ 32, s.a, s.b, s.c, (s.d + temp1) % 2 ^ 32, s.e, s.f, s.g⟩

/-- Big-endian packing of bytes into 32-bit words. -/
def bytesToWords : List Nat → List Nat
  | b0 :: b1 :: b2 :: b3 :: rest =>
    (b0 * 2 ^ 24 + b1 * 2 ^ 16 + b2 * 2 ^ 8 + b3) :: bytesToWords rest
  | _ => []

/-- Extend a 16-word block schedule by `k` further words. -/
def extendW (w : List Nat) : Nat → List Nat
  | 0 => w
  | k + 1 =>
    let w' := extendW w k
    let m := w'.length
    w' ++ [(ssig1 (w'.getD (m - 2) 0) + w'.getD (m - 7) 0 +
            ssig0 (w'.getD (m - 15) 0) + w'.getD (m - 16) 0) % 2 ^ 32]

/-- Process one 64-byte block. -/
def processBlock (s : Hash8) (block : List Nat) : Hash8 :=
  let w := extendW (bytesToWords block) 48
  let t := (kConstants.zip w).foldl compressRound s
  ⟨(s.a + t.a) % 2 ^ 32, (s.b + t.b) % 2 ^ 32, (s.c + t.c) % 2 ^ 32, (s.d + t.d) % 2 ^ 32,
   (s.e + t.e) % 2 ^ 32, (s.f + t.f) % 2 ^ 32, (s.g + t.g) % 2 ^ 32, (s.h + t.h) % 2 ^ 32⟩

/-- Split a byte list into 64-byte chunks. -/
def toBlocks : List Nat → List (List Nat)
  | [] => []
  | x :: rest => (x :: rest).take 64 :: toBlocks ((x :: rest).drop 64)
termination_by l => l.length
decreasing_by simp [List.length_drop]; omega

/-- SHA-256 padding for a message of `len` bytes. -/
def sha256pad (len : Nat) : List Nat :=
  0x80 :: List.replicate ((119 - len % 64) % 64) 0 ++
    (List.range 8).map (fun i => 8 * len / 2 ^ (8 * (7 - i)) % 256)

/-- Serialize the final state as 32 big-endian bytes. -/
def hashBytes (t : Hash8) : List Nat :=
  ([t.a / 2 ^ 24, t.a / 2 ^ 16, t.a / 2 ^ 8, t.a,
    t.b / 2 ^ 24, t.b / 2 ^ 16, t.b / 2 ^ 8, t.b,
    t.c / 2 ^ 24, t.c / 2 ^ 16, t.c / 2 ^ 8, t.c,
    t.d / 2 ^ 24, t.d / 2 ^ 16, t.d / 2 ^ 8, t.d,
    t.e / 2 ^ 24, t.e / 2 ^ 16, t.e / 2 ^ 8, t.e,
    t.f / 2 ^ 24, t.f / 2 ^ 16, t.f / 2 ^ 8, t.f,
    t.g / 2 ^ 24, t.g / 2 ^ 16, t.g / 2 ^ 8, t.g,
    t.h / 2 ^ 24, t.h / 2 ^ 16, t.h / 2 ^ 8, t.h]).map (fun x => x % 256)

/-- SHA-256 of a byte list. -/
def sha256 (msg : List Nat) : List Nat :=
  hashBytes ((toBlocks (msg ++ sha256pad msg.length)).foldl processBlock sha256init)

/-- HMAC-SHA256 (RFC 2104, block size 64). -/
def hmacSha256 (key msg : List Nat) : List Nat :=
  let k1 := if key.length > 64 then sha256 key else key
  let kp := k1 ++ List.replicate (64 - k1.length) 0
  sha256 (kp.map (Nat.xor 0x5c) ++ sha256 (kp.map (Nat.xor 0x36) ++ msg))

/-- UTF-8 encoding of one character (`str.encode('utf8')` collaborator). -/
def charUtf8 (c : Char) : List Nat :=
  let n := c.toNat
  if n < 0x80 then [n]
  else if n < 0x800 then [0xc0 + n / 0x40, 0x80 + n % 0x40]
  else if n < 0x10000 then [0xe0 + n / 0x1000, 0x80 + n / 0x40 % 0x40, 0x80 + n % 0x40]
  else [0xf0 + n / 0x40000, 0x80 + n / 0x1000 % 0x40, 0x80 + n / 0x40 % 0x40, 0x80 + n % 0x40]

/-- `s.encode('utf8')` as a byte list. -/
def strBytes (s : String) : List Nat := s.data.flatMap charUtf8

/-- Lowercase hex digit for `n < 16`. -/
def hexChar (n : Nat) : Char :=
  if n < 10 then Char.ofNat (48 + n) else Char.ofNat (87 + n)

/-- Two lowercase hex digits of a byte. -/
def byteHex (b : Nat) : List Char := [hexChar (b / 16), hexChar (b % 16)]

/-- `.hexdigest()`: lowercase hex encoding of a byte list. -/
def hexdigest (bs : List Nat) : String := String.mk (bs.flatMap byteHex)

/-! ### The fallback `compare_digest` (source lines 19-22)

`reduce` over an empty Python sequence with no initializer raises, so the
result is `Except`: lengths differ gives `false`, equal nonzero length
folds `|` over the pairwise `ord`-XORs, and two empty arguments raise. -/

/-- The fallback `compare_digest(a, b)` defined in the source when
`hmac.compare_digest` is unavailable. -/
def compare_digest (a b : String) : Except PyErr Bool :=
  if a.length ≠ b.length then .ok false
  else
    match (a.data.zip b.data).map (fun p => Nat.xor p.1.toNat p.2.toNat) with
    | [] => .error .typeError
    | x :: xs => .ok (decide (xs.foldl Nat.lor x = 0))

/-! ### JSON values (model of the `json` codec collaborator) -/

/-- Decoded JSON values, as produced by the external `json.loads`
collaborator.  Numbers are modelled as integers. -/
inductive JVal where
  | jnull
  | jbool (b : Bool)
  | jnum (n : Int)
  | jstr (s : String)
  | jarr (xs : List JVal)
  | jobj (fields : List (String × JVal))

/-- Python truthiness of a decoded JSON value (`if not time_ms:`). -/
def pyFalsy : JVal → Bool
  | .jnull => true
  | .jbool b => !b
  | .jnum n => n == 0
  | .jstr s => s == ""
  | .jarr xs => xs.isEmpty
  | .jobj fs => fs.isEmpty

/-- The numeric value of a JSON value usable in Python arithmetic
(`bool` counts, with `True == 1`); `none` means the subtraction
`time.time()*1000 - time_ms` raises `TypeError`. -/
def jNumber : JVal → Option Int
  | .jnum n => some n
  | .jbool b => some (if b then 1 else 0)
  | _ => none

/-- Decimal digits of a natural number (empty for zero). -/
def natDigits (n : Nat) : List Char :=
  if h : n = 0 then []
  else natDigits (n / 10) ++ [Char.ofNat (48 + n % 10)]
decreasing_by exact Nat.div_lt_self (Nat.pos_of_ne_zero h) (by omega)

/-- Decimal rendering of an integer. -/
def intRepr : Int → String
  | .ofNat 0 => "0"
  | .ofNat (m + 1) => String.mk (natDigits (m + 1))
  | .negSucc m => "-" ++ String.mk (natDigits (m + 1))

mutual

/-- Modelled from the spec: the external JSON codec's `encode`
(`json.dumps`), with Python's default `", "` and `": "` separators. -/
def jsonEncode : JVal → String
  | .jnull => "null"
  | .jbool true => "true"
  | .jbool false => "false"
  | .jnum n => intRepr n
  | .jstr s => "\"" ++ s ++ "\""
  | .jarr xs => "[" ++ jsonEncodeList xs ++ "]"
  | .jobj fs => "\x7b" ++ jsonEncodeObj fs ++ "\x7d"

def jsonEncodeList : List JVal → String
  | [] => ""
  | [v] => jsonEncode v
  | v :: vs => jsonEncode v ++ ", " ++ jsonEncodeList vs

def jsonEncodeObj : List (String × JVal) → String
  | [] => ""
  | [(k, v)] => "\"" ++ k ++ "\": " ++ jsonEncode v
  | (k, v) :: fs => "\"" ++ k ++ "\": " ++ jsonEncode v ++ ", " ++ jsonEncodeObj fs

end

/-! ### Channel names and `authenticate_subscription` -/

/-- Modelled from the spec: one character accepted by the channel-name
validator of `pusher.util` (not under `src/`): `[A-Za-z0-9_=@,.;-]`. -/
def channelNameChar (c : Char) : Bool :=
  c.isAlphanum || c = '_' || c = '=' || c = '@' || c = ',' || c = '.' || c = ';' || c = '-'

/-- Modelled from the spec: the channel-name predicate `channel_name_re`
from `pusher.util` (not under `src/`): a nonempty bounded string of
accepted characters. -/
def isValidChannelName (s : String) : Bool :=
  s ≠ "" && s.length ≤ 200 && s.data.all channelNameChar

/-- The token returned by `authenticate_subscription`. -/
structure Token where
  auth : String
  channel_data : Option String
  deriving DecidableEq, Repr

/-- The serialized custom data actually used: `json.dumps` is applied only
when `custom_data` is truthy, and the result is then used only where it is
itself truthy (a nonempty string). -/
def serializedData (custom_data : Option JVal) : Option String :=
  match custom_data with
  | some v =>
    if pyFalsy v then none
    else if jsonEncode v ≠ "" then some (jsonEncode v) else none
  | none => none

/-- The string to sign in `authenticate_subscription`. -/
def stringToSign (socket_id channel : String) (custom_data : Option JVal) : String :=
  match serializedData custom_data with
  | some s => socket_id ++ ":" ++ channel ++ ":" ++ s
  | none => socket_id ++ ":" ++ channel

/-- `Config.authenticate_subscription` from the source, lines 121-153.
`channel` and `socket_id` are strings (the `isinstance` guards pass); an
invalid channel name raises `ValueError`. -/
def Config.authenticate_subscription (c : Config) (channel socket_id : String)
    (custom_data : Option JVal := none) : Except PyErr Token :=
  if ¬ isValidChannelName channel then .error .valueError
  else
    let sts := stringToSign socket_id channel custom_data
    let signature := hexdigest (hmacSha256 (strBytes c.secret) (strBytes sts))
    .ok { auth := c.key ++ ":" ++ signature, channel_data := serializedData custom_data }

/-! ### `validate_webhook` (source lines 155-193)

The `json.loads` collaborator is passed in as `decode` (a `ValueError`
from it is caught by the source and mapped to `none`); the current time
`time.time() * 1000` is passed in as `now`.  The source does unguarded
attribute access and arithmetic on the decoded body, so the result is
`Except`: `.get` on a non-object raises `AttributeError`, and
`now - time_ms` on a truthy non-numeric `time_ms` raises `TypeError`. -/

/-- `Config.validate_webhook` from the source; `key`, `signature`, `body`
are strings (the `isinstance` guards pass). -/
def Config.validate_webhook (c : Config) (decode : String → Option JVal) (now : Int)
    (key signature body : String) : Except PyErr (Option JVal) :=
  if key ≠ c.key then .ok none
  else
    let generated := hexdigest (hmacSha256 (strBytes c.secret) (strBytes body))
    match compare_digest generated signature with
    | .error e => .error e
    | .ok false => .ok none
    | .ok true =>
      match decode body with
      | none => .ok none
      | some body_data =>
        match body_data with
        | .jobj fields =>
          match fields.lookup "time_ms" with
          | none => .ok none
          | some t =>
            if pyFalsy t then .ok none
            else
              match jNumber t with
              | none => .error .typeError
              | some n => if (now - n).natAbs > 300000 then .ok none else .ok (some body_data)
        | _ => .error .attributeError

/-! ### `Config.from_url` (source lines 81-96)

The source uses `re.match("(http|https)://(.*):(.*)@(.*)/apps/([0-9]+)",
url)`: anchored at the start only, with greedy `(.*)` groups that match
any character except a newline.  `greedySplit k l` is Python's greedy
backtracking for one `(.*)` group followed by the continuation `k`: it
returns the longest newline-free consumed part whose remainder satisfies
`k`, preferring longer parts exactly as the backtracking engine does. -/

/-- Greedy `(.*)` matching: split `l` as `consumed ++ rest` with the
longest possible newline-free `consumed` such that `k rest` succeeds. -/
def greedySplit (k : List Char → Option α) : List Char → Option (List Char × α)
  | [] => (k []).map (fun a => (([] : List Char), a))
  | c :: cs =>
    if c = '\n' then (k (c :: cs)).map (fun a => (([] : List Char), a))
    else
      match greedySplit k cs with
      | some (pre, a) => some (c :: pre, a)
      | none => (k (c :: cs)).map (fun a => (([] : List Char), a))

/-- Continuation for the tail `/apps/([0-9]+)` of the pattern: a literal
`/apps/`, then a maximal nonempty run of digits (anything may follow,
since the pattern has no end anchor). -/
def pApps (l : List Char) : Option String :=
  if l.take 6 = "/apps/".data then
    let ds := (l.drop 6).takeWhile Char.isDigit
    if ds.isEmpty then none else some (String.mk ds)
  else none

/-- Continuation from the third group on: `(.*)/apps/([0-9]+)` giving
`(host, appId)`. -/
def pHost (l : List Char) : Option (String × String) :=
  (greedySplit pApps l).map (fun pa => (String.mk pa.1, pa.2))

/-- The literal `@` separator followed by the host continuation. -/
def pHostStep (suf : List Char) : Option (String × String) :=
  match suf with
  | '@' :: t => pHost t
  | _ => none

/-- Continuation from the second group on: `(.*)@(.*)/apps/([0-9]+)`
giving `(secret, host, appId)`. -/
def pSecret (l : List Char) : Option (String × String × String) :=
  (greedySplit pHostStep l).map (fun pa => (String.mk pa.1, pa.2))

/-- The literal `:` separator followed by the secret continuation. -/
def pSecretStep (suf : List Char) : Option (String × String × String) :=
  match suf with
  | ':' :: t => pSecret t
  | _ => none

/-- The part after the scheme: `(.*):(.*)@(.*)/apps/([0-9]+)` giving
`(key, secret, host, appId)`. -/
def pKey (l : List Char) : Option (String × String × String × String) :=
  (greedySplit pSecretStep l).map (fun pa => (String.mk pa.1, pa.2))

/-- `re.match` of the whole pattern against `url`: the scheme alternation
`(http|https)` followed by `://` and the rest, unanchored at the end.
Returns `(ssl, key, secret, host, appId)` with `ssl` true iff the scheme
was `https`. -/
def matchUrl (l : List Char) : Option (Bool × String × String × String × String) :=
  if l.take 7 = "http://".data then (pKey (l.drop 7)).map (fun g => (false, g))
  else if l.take 8 = "https://".data then (pKey (l.drop 8)).map (fun g => (true, g))
  else none

/-- `Config.from_url` from the source: on a match, delegates to
`Config.__init__` with the captured groups and no port or cluster; on a
failed match raises `Exception("Unparsable url: ...")`. -/
def Config.from_url (url : String) : Except PyErr Config :=
  match matchUrl url.data with
  | none => .error .unparsableUrl
  | some (ssl, key, secret, host, app_id) =>
    Config.init app_id (.vstr key) (.vstr secret) (.vbool ssl) (some host) .vnone none

/-- `Config.from_env` from the source: reads the named variable through
the environment collaborator `getenv`; an unset or empty value raises. -/
def Config.from_env (getenv : String → Option String) (env : String := "PUSHER_URL") :
    Except PyErr Config :=
  match getenv env with
  | none => .error .envMissing
  | some v => if v = "" then .error .envMissing else Config.from_url v

/-- The URL rendering `"{scheme}://{key}:{secret}@{host}/apps/{appId}"`
used by the round-trip property. -/
def configUrl (c : Config) : String :=
  c.scheme ++ "://" ++ c.key ++ ":" ++ c.secret ++ "@" ++ c.host ++ "/apps/" ++ c.app_id

/-! ### The spec's anchored URL shape (for claim C6)

The spec asserts the exact shape `^(http|https)://([^:]*):([^@]*)@([^/]*)
/apps/([0-9]+)$`.  With negated character classes and both anchors this is
deterministic: split at the first `:` after the scheme, then the first
`@`, then the first `/`; the path must be exactly `/apps/` plus one or
more digits, with nothing after. -/

/-- Decide `^(http|https)://([^:]*):([^@]*)@([^/]*)/apps/([0-9]+)$`,
written from the spec's words (not from the source). -/
def specUrlShape (url : String) : Bool :=
  let afterScheme : Option (List Char) :=
    if url.data.take 7 = "http://".data then some (url.data.drop 7)
    else if url.data.take 8 = "https://".data then some (url.data.drop 8)
    else none
  match afterScheme with
  | none => false
  | some l =>
    let key := l.takeWhile (· ≠ ':')
    let l1 := l.drop (key.length + 1)
    let secret := l1.takeWhile (· ≠ '@')
    let l2 := l1.drop (secret.length + 1)
    let host := l2.takeWhile (· ≠ '/')
    let l3 := l2.drop host.length
    decide (key.length + 1 ≤ l.length) &&
    decide (secret.length + 1 ≤ l1.length) &&
    decide (l3.take 6 = "/apps/".data) &&
    !(l3.drop 6).isEmpty && (l3.drop 6).all Char.isDigit

/-! ### Definitions used by the claim statements -/

/-- A lowercase hex digit: `0`-`9` or `a`-`f`. -/
def isHexLowerChar (c : Char) : Bool :=
  ('0' ≤ c && c ≤ '9') || ('a' ≤ c && c ≤ 'f')

/-- The host resolution of the amended claim C5: a supplied nonempty host
wins; else a supplied nonempty cluster gives `api-{cluster}.pusher.com`;
else the default `api.pusherapp.com`; empty strings act as unsupplied. -/
def specResolveHost (host cluster : Option String) : String :=
  match host with
  | some h =>
    if h ≠ "" then h else
      match cluster with
      | some c => if c ≠ "" then "api-" ++ c ++ ".pusher.com" else "api.pusherapp.com"
      | none => "api.pusherapp.com"
  | none =>
    match cluster with
    | some c => if c ≠ "" then "api-" ++ c ++ ".pusher.com" else "api.pusherapp.com"
    | none => "api.pusherapp.com"

/-- The port resolution of the amended claim C5: a supplied truthy port
wins (with `True` counting as `1`); a port of `0` or `None` falls back to
`443` under TLS and `80` otherwise. -/
def specResolvePort (port : PyVal) (ssl : Bool) : Int :=
  if pyTruthyV port then pyIntValue port else if ssl then 443 else 80

/-- Whether a decoded JSON value is an object (a Python `dict`, the only
decoded values with a `.get` method). -/
def isJObj : JVal → Bool
  | .jobj _ => true
  | _ => false

/-- A webhook body whose JSON parse has a truthy but non-numeric
`time_ms`: the literal text `{"time_ms": "x"}`. -/
def exampleBody1 : String := "\x7b\"time_ms\": \"x\"\x7d"

/-- The `json.loads` collaborator on `exampleBody1`. -/
def exampleDecode1 : String → Option JVal := fun s =>
  if s = exampleBody1 then some (.jobj [("time_ms", .jstr "x")]) else none

/-- A webhook body whose JSON parse has `time_ms` bound to a nonempty
list: the literal text `{"time_ms": [1]}`. -/
def exampleBody8 : String := "\x7b\"time_ms\": [1]\x7d"

/-- The `json.loads` collaborator on `exampleBody8`. -/
def exampleDecode8 : String → Option JVal := fun s =>
  if s = exampleBody8 then some (.jobj [("time_ms", .jarr [.jnum 1])]) else none

/-! ### Basic lemmas about hex digests and `compare_digest` -/

theorem string_mk_length (l : List Char) : (String.mk l).length = l.length := rfl

theorem string_mk_data (l : List Char) : (String.mk l).data = l := rfl

theorem lor_eq_zero_iff (m n : Nat) : Nat.lor m n = 0 ↔ m = 0 ∧ n = 0 := by
  show m ||| n = 0 ↔ m = 0 ∧ n = 0
  constructor
  · intro h
    refine ⟨Nat.eq_of_testBit_eq fun i => ?_, Nat.eq_of_testBit_eq fun i => ?_⟩ <;>
    · have h2 := congrArg (fun x => Nat.testBit x i) h
      simp only [Nat.testBit_or, Nat.zero_testBit, Bool.or_eq_false_iff] at h2
      simp [h2]
  · rintro ⟨rfl, rfl⟩; rfl

theorem foldl_lor_eq_zero (l : List Nat) (x : Nat) :
    l.foldl Nat.lor x = 0 ↔ x = 0 ∧ ∀ y ∈ l, y = 0 := by
  induction l generalizing x with
  | nil => simp
  | cons z l ih =>
    simp only [List.foldl_cons, ih, lor_eq_zero_iff, List.mem_cons]
    constructor
    · rintro ⟨⟨hx, hz⟩, hall⟩
      exact ⟨hx, fun y hy => by rcases hy with rfl | hy; exacts [hz, hall y hy]⟩
    · rintro ⟨hx, hall⟩
      exact ⟨⟨hx, hall z (.inl rfl)⟩, fun y hy => hall y (.inr hy)⟩

theorem char_toNat_inj {a b : Char} (h : a.toNat = b.toNat) : a = b :=
  Char.ofNat_toNat a ▸ Char.ofNat_toNat b ▸ congrArg Char.ofNat h

theorem xorlist_zero_iff (la lb : List Char) (h : la.length = lb.length) :
    (∀ z ∈ (la.zip lb).map (fun p => Nat.xor p.1.toNat p.2.toNat), z = 0) ↔ la = lb := by
  induction la generalizing lb with
  | nil => cases lb with
    | nil => simp
    | cons y lb => simp at h
  | cons x la ih =>
    cases lb with
    | nil => simp at h
    | cons y lb =>
      simp only [List.zip_cons_cons, List.map_cons, List.mem_cons, forall_eq_or_imp,
        List.cons.injEq]
      rw [ih lb (by simpa using h)]
      constructor
      · rintro ⟨hxy, hrest⟩
        refine ⟨char_toNat_inj ?_, hrest⟩
        exact Nat.xor_eq_zero.mp hxy
      · rintro ⟨rfl, hrest⟩
        exact ⟨Nat.xor_eq_zero.mpr rfl, hrest⟩

/-- On equal-length nonempty inputs, the fallback `compare_digest`
decides string equality. -/
theorem compare_digest_spec (a b : String) (hl : a.length = b.length) (ha : a ≠ "") :
    compare_digest a b = .ok (decide (a = b)) := by
  obtain ⟨la⟩ := a
  obtain ⟨lb⟩ := b
  have hll : la.length = lb.length := hl
  have hla : la ≠ [] := fun hnil => ha (by simp [hnil])
  unfold compare_digest
  rw [if_neg (by simpa using hl)]
  have hiff := xorlist_zero_iff la lb hll
  cases la with
  | nil => exact absurd rfl hla
  | cons x la' =>
    cases lb with
    | nil => simp at hll
    | cons y lb' =>
      simp only [string_mk_data, List.zip_cons_cons, List.map_cons]
      congr 1
      rw [decide_eq_decide, foldl_lor_eq_zero]
      simp only [List.zip_cons_cons, List.map_cons, List.mem_cons, forall_eq_or_imp] at hiff
      rw [hiff]
      exact ⟨congrArg String.mk, fun hmk => congrArg String.data hmk⟩

theorem compare_digest_self (a : String) (ha : a ≠ "") : compare_digest a a = .ok true := by
  rw [compare_digest_spec a a rfl ha]
  simp

theorem hexdigest_length (bs : List Nat) : (hexdigest bs).length = 2 * bs.length := by
  induction bs with
  | nil => rfl
  | cons b bs ih =>
    show (String.mk ((b :: bs).flatMap byteHex)).length = _
    rw [List.flatMap_cons, string_mk_length, List.length_append]
    have : (bs.flatMap byteHex).length = 2 * bs.length := by
      rw [← string_mk_length]; exact ih
    rw [this]
    simp [byteHex]
    omega

theorem sha256_length (m : List Nat) : (sha256 m).length = 32 := rfl

theorem hmac_length (k m : List Nat) : (hmacSha256 k m).length = 32 := rfl

theorem sha256_lt (m : List Nat) : ∀ b ∈ sha256 m, b < 256 := by
  intro b hb
  simp only [sha256, hashBytes, List.mem_map] at hb
  obtain ⟨x, _, rfl⟩ := hb
  omega

theorem hmac_lt (k m : List Nat) : ∀ b ∈ hmacSha256 k m, b < 256 := by
  intro b hb
  unfold hmacSha256 at hb
  exact sha256_lt _ b hb

theorem hexChar_lower : ∀ n < 16, isHexLowerChar (hexChar n) = true := by decide

theorem hexdigest_lower (bs : List Nat) (h : ∀ b ∈ bs, b < 256) :
    ∀ c ∈ (hexdigest bs).data, isHexLowerChar c = true := by
  intro c hc
  simp only [hexdigest, string_mk_data, List.mem_flatMap] at hc
  obtain ⟨b, hb, hcb⟩ := hc
  have hb256 := h b hb
  simp only [byteHex, List.mem_cons, List.not_mem_nil, or_false] at hcb
  rcases hcb with rfl | rfl
  · exact hexChar_lower _ ((Nat.div_lt_iff_lt_mul (by norm_num)).mpr (by omega))
  · exact hexChar_lower _ (Nat.mod_lt _ (by norm_num))

theorem hexdigest_hmac_length (k m : List Nat) : (hexdigest (hmacSha256 k m)).length = 64 := by
  rw [hexdigest_length, hmac_length]

theorem hexdigest_hmac_ne_empty (k m : List Nat) : hexdigest (hmacSha256 k m) ≠ "" := by
  intro h
  have h64 := hexdigest_hmac_length k m
  rw [h] at h64
  simp at h64

/-! ### Claim C2: the fallback constant-time compare -/

/-- C2 counterexample: the claim says equal-length inputs compare to
`true` iff they are equal, but on the two equal empty strings the
fallback raises (`reduce` over an empty sequence) instead of returning
`true`. -/
theorem compare_digest_empty_counterexample :
    "".length = "".length ∧ ("" : String) = "" ∧
    compare_digest "" "" = .error .typeError ∧ ∀ r : Bool, compare_digest "" "" ≠ .ok r := by
  refine ⟨rfl, rfl, rfl, fun r h => ?_⟩
  exact Except.noConfusion h

/-- C2 (amended): if the lengths differ the result is `false`; on equal
nonzero lengths the result is `true` iff the strings are equal (bitwise
OR of all pairwise XORs, no early exit); on two empty inputs the fallback
raises a `TypeError` instead of returning. -/
theorem compare_digest_amended :
    (∀ a b : String, a.length ≠ b.length → compare_digest a b = .ok false) ∧
    (∀ a b : String, a.length = b.length → a ≠ "" →
      (compare_digest a b = .ok true ↔ a = b)) ∧
    compare_digest "" "" = .error .typeError := by
  refine ⟨?_, ?_, rfl⟩
  · intro a b h
    unfold compare_digest
    rw [if_pos h]
  · intro a b hl ha
    rw [compare_digest_spec a b hl ha]
    simp

/-- C2 witness: the amended theorem evaluated on concrete inputs. -/
theorem compare_digest_amended_witness :
    compare_digest "ab" "ab" = .ok true ∧ compare_digest "a" "ab" = .ok false := by
  constructor
  · exact (compare_digest_amended.2.1 "ab" "ab" rfl (by decide)).mpr rfl
  · exact compare_digest_amended.1 "a" "ab" (by decide)

/-! ### Claims C4, C5, C9: `Config.__init__` -/

/-- C4 counterexample: the claim says any supplied non-positive integer
port is rejected, but `-1` is truthy and an integer, so construction
succeeds and stores port `-1`. -/
theorem create_negative_port_counterexample :
    Config.init "1" (.vstr "key") (.vstr "secret") (.vbool false) none (.vint (-1)) none =
      .ok ⟨"1", "key", "secret", "api.pusherapp.com", -1, false⟩ ∧ (-1 : Int) ≤ 0 := by
  exact ⟨rfl, by norm_num⟩

/-- C4 (amended): construction raises exactly when the key is not a
string, or the secret is not a string, or the port is truthy (nonzero,
non-`None`) and not of integer type (a Python `bool` counts as an
integer), or `ssl` is not a boolean.  A supplied port of `0` is falsy and
therefore never checked, and negative integer ports are accepted. -/
theorem create_raises_iff (app_id : String) (key secret ssl port : PyVal)
    (host cluster : Option String) :
    (∃ e, Config.init app_id key secret ssl host port cluster = .error e) ↔
      (isText key = false ∨ isText secret = false ∨
       (pyTruthyV port = true ∧ isIntType port = false) ∨ isBoolType ssl = false) := by
  unfold Config.init
  split_ifs with h1 h2 h3 h4 <;> simp_all

/-- C5 counterexample: the claim says the resulting port is the explicit
port whenever one is supplied, but a supplied port of `0` is falsy and
the default `80` is used instead. -/
theorem create_port_zero_counterexample :
    Config.init "1" (.vstr "key") (.vstr "secret") (.vbool false) none (.vint 0) none =
      .ok ⟨"1", "key", "secret", "api.pusherapp.com", 80, false⟩ ∧ (80 : Int) ≠ 0 := by
  exact ⟨rfl, by norm_num⟩

/-- On string key and secret, boolean ssl, and a port that is falsy or of
integer type, `Config.__init__` succeeds with the resolved fields. -/
theorem config_init_ok (app_id k s : String) (ssl : Bool) (host : Option String)
    (port : PyVal) (cluster : Option String)
    (hport : pyTruthyV port = false ∨ isIntType port = true) :
    Config.init app_id (.vstr k) (.vstr s) (.vbool ssl) host port cluster =
      .ok { app_id := app_id, key := k, secret := s,
            host := specResolveHost host cluster,
            port := specResolvePort port ssl, ssl := ssl } := by
  unfold Config.init
  rw [if_neg (by simp [isText]), if_neg (by simp [isText]),
      if_neg (by rcases hport with h | h <;> simp [h]), if_neg (by simp [isBoolType])]
  rfl

/-- C5 (amended): for every successful construction the host is the
supplied host if nonempty, else `api-{cluster}.pusher.com` for a nonempty
cluster, else `api.pusherapp.com`; the port is the supplied port if
truthy, else `443` under TLS and `80` otherwise; the scheme is `https`
iff TLS; in particular `create("455","mykey","mysecret")` yields the
default host, port `80` and scheme `http` (see the witness). -/
theorem create_resolution (app_id k s : String) (ssl : Bool) (host : Option String)
    (port : PyVal) (cluster : Option String) (c : Config)
    (h : Config.init app_id (.vstr k) (.vstr s) (.vbool ssl) host port cluster = .ok c) :
    c.host = specResolveHost host cluster ∧ c.port = specResolvePort port ssl ∧
    c.scheme = (if ssl then "https" else "http") ∧
    c.app_id = app_id ∧ c.key = k ∧ c.secret = s := by
  have hport : pyTruthyV port = false ∨ isIntType port = true := by
    by_contra hcon
    push_neg at hcon
    obtain ⟨h1, h2⟩ := hcon
    have h1' : pyTruthyV port = true := by
      cases hpt : pyTruthyV port
      · exact absurd hpt h1
      · rfl
    have h2' : isIntType port = false := by
      cases hit : isIntType port
      · rfl
      · exact absurd hit h2
    unfold Config.init at h
    rw [if_neg (by simp [isText]), if_neg (by simp [isText]),
        if_pos (show pyTruthyV port = true ∧ ¬ isIntType port = true from ⟨h1', by simp [h2']⟩)] at h
    exact Except.noConfusion h
  rw [config_init_ok app_id k s ssl host port cluster hport] at h
  injection h with h'
  subst h'
  exact ⟨rfl, rfl, rfl, rfl, rfl, rfl⟩

/-- C5 witness: the spec's scenario `create("455","mykey","mysecret")`
evaluated through the amended theorem. -/
theorem create_resolution_witness :
    Config.init "455" (.vstr "mykey") (.vstr "mysecret") =
      .ok ⟨"455", "mykey", "mysecret", "api.pusherapp.com", 80, false⟩ ∧
    (Config.mk "455" "mykey" "mysecret" "api.pusherapp.com" 80 false).scheme = "http" := by
  refine ⟨rfl, ?_⟩
  exact (create_resolution "455" "mykey" "mysecret" false none .vnone none _ rfl).2.2.1.trans rfl

/-- A successful `Config.__init__` implies the port argument was falsy or
of integer type. -/
theorem init_ok_port (app_id : String) (key secret ssl : PyVal) (host : Option String)
    (port : PyVal) (cluster : Option String) (c : Config)
    (h : Config.init app_id key secret ssl host port cluster = .ok c) :
    pyTruthyV port = false ∨ isIntType port = true := by
  by_contra hcon
  push_neg at hcon
  obtain ⟨h1, h2⟩ := hcon
  have h1' : pyTruthyV port = true := by
    cases hpt : pyTruthyV port
    · exact absurd hpt h1
    · rfl
  have h2' : isIntType port = false := by
    cases hit : isIntType port
    · rfl
    · exact absurd hit h2
  unfold Config.init at h
  by_cases hk : isText key = true
  · by_cases hs : isText secret = true
    · rw [if_neg (by simp [hk]), if_neg (by simp [hs]),
        if_pos (show pyTruthyV port = true ∧ ¬ isIntType port = true
          from ⟨h1', by simp [h2']⟩)] at h
      exact Except.noConfusion h
    · rw [if_neg (by simp [hk]), if_pos (by simp [hs])] at h
      exact Except.noConfusion h
  · rw [if_pos (by simp [hk])] at h
    exact Except.noConfusion h

/-- The amended port resolution is positive whenever every explicitly
supplied integer port is positive. -/
theorem specResolvePort_pos (port : PyVal) (ssl : Bool)
    (hok : pyTruthyV port = false ∨ isIntType port = true)
    (hpos : ∀ n, port = PyVal.vint n → 0 < n) : 0 < specResolvePort port ssl := by
  unfold specResolvePort
  cases port with
  | vnone => simp [pyTruthyV]; split <;> norm_num
  | vint n =>
    have hn : 0 < n := hpos n rfl
    simp [pyTruthyV, pyIntValue, show n ≠ 0 from by omega]
    omega
  | vbool b =>
    cases b
    · simp [pyTruthyV]; split <;> norm_num
    · simp [pyTruthyV, pyIntValue]
  | vstr s =>
    have hfal : pyTruthyV (PyVal.vstr s) = false := by
      rcases hok with h | h
      · exact h
      · exact absurd h (by simp [isIntType])
    rw [hfal]
    simp only [Bool.false_eq_true, if_false]
    split <;> norm_num

/-- C9 counterexample: the claim says key and secret are always nonempty,
but `Config.__init__` accepts empty strings for both. -/
theorem config_empty_key_counterexample :
    Config.init "1" (.vstr "") (.vstr "") =
      .ok ⟨"1", "", "", "api.pusherapp.com", 80, false⟩ ∧ ("" : String).length = 0 :=
  ⟨rfl, rfl⟩

/-- C9 (amended): a successfully constructed config carries the supplied
key and secret verbatim (they are strings but may be empty), and its port
is positive provided every explicitly supplied integer port was positive;
configs built by `from_url` never pass a port, so their port is always
positive. -/
theorem config_invariants_amended :
    (∀ (app_id k s : String) (ssl : Bool) (host : Option String) (port : PyVal)
        (cluster : Option String) (c : Config),
      Config.init app_id (.vstr k) (.vstr s) (.vbool ssl) host port cluster = .ok c →
      (∀ n, port = PyVal.vint n → 0 < n) →
      c.key = k ∧ c.secret = s ∧ 0 < c.port) ∧
    (∀ url c, Config.from_url url = .ok c → 0 < c.port) := by
  constructor
  · intro app_id k s ssl host port cluster c h hpos
    have hres := create_resolution app_id k s ssl host port cluster c h
    have hport := init_ok_port app_id (.vstr k) (.vstr s) (.vbool ssl) host port cluster c h
    exact ⟨hres.2.2.2.2.1, hres.2.2.2.2.2, hres.2.1 ▸ specResolvePort_pos port ssl hport hpos⟩
  · intro url c h
    unfold Config.from_url at h
    cases hm : matchUrl url.data with
    | none => rw [hm] at h; exact Except.noConfusion h
    | some g =>
      obtain ⟨ssl, k, s, host, app⟩ := g
      rw [hm] at h
      have hres := create_resolution app k s ssl (some host) .vnone none c h
      rw [hres.2.1]
      exact specResolvePort_pos .vnone ssl (Or.inl rfl) (fun n hn => nomatch hn)

/-- C9 witness: the amended theorem evaluated on a concrete construction. -/
theorem config_invariants_amended_witness :
    Config.init "9" (.vstr "k2") (.vstr "s2") =
      .ok ⟨"9", "k2", "s2", "api.pusherapp.com", 80, false⟩ ∧
    0 < (Config.mk "9" "k2" "s2" "api.pusherapp.com" 80 false).port := by
  refine ⟨rfl, ?_⟩
  exact (config_invariants_amended.1 "9" "k2" "s2" false none .vnone none _ rfl
    (fun n hn => nomatch hn)).2.2

/-! ### Claims C3 and C10: `authenticate_subscription` -/

theorem string_ne_empty_iff (s : String) : s ≠ "" ↔ s.data ≠ [] := by
  obtain ⟨l⟩ := s
  constructor
  · intro h hl
    exact h (congrArg String.mk hl)
  · intro h hs
    exact h (congrArg String.data hs)

theorem append_ne_empty_left (s t : String) (h : s ≠ "") : s ++ t ≠ "" := by
  rw [string_ne_empty_iff] at h ⊢
  rw [String.data_append]
  intro hc
  exact h (List.append_eq_nil.mp hc).1

theorem natDigits_ne_nil (n : Nat) (h : n ≠ 0) : natDigits n ≠ [] := by
  unfold natDigits
  rw [dif_neg h]
  simp

theorem intRepr_ne_empty (n : Int) : intRepr n ≠ "" := by
  cases n with
  | ofNat m =>
    cases m with
    | zero => decide
    | succ m' =>
      show String.mk (natDigits (m' + 1)) ≠ ""
      rw [string_ne_empty_iff, string_mk_data]
      exact natDigits_ne_nil _ (Nat.succ_ne_zero m')
  | negSucc m => exact append_ne_empty_left "-" _ (by decide)

theorem jsonEncode_ne_empty (v : JVal) : jsonEncode v ≠ "" := by
  cases v with
  | jnull => decide
  | jbool b => cases b <;> decide
  | jnum n => exact intRepr_ne_empty n
  | jstr s => exact append_ne_empty_left _ _ (append_ne_empty_left "\"" s (by decide))
  | jarr xs => exact append_ne_empty_left _ _ (append_ne_empty_left "[" _ (by decide))
  | jobj fs => exact append_ne_empty_left _ _ (append_ne_empty_left "\x7b" _ (by decide))

/-- C10: supplying falsy custom data (empty dict, empty string, zero,
false, null, empty list) behaves exactly as supplying none: `json.dumps`
is never called, the string to sign is only `socket_id:channel`, and the
token has no `channel_data`. -/
theorem authenticate_falsy_custom_data (c : Config) (channel socket_id : String) (v : JVal)
    (hf : pyFalsy v = true) :
    c.authenticate_subscription channel socket_id (some v) =
      c.authenticate_subscription channel socket_id none := by
  have h1 : serializedData (some v) = serializedData none := by
    simp [serializedData, hf]
  unfold Config.authenticate_subscription stringToSign
  rw [h1]

/-- C10 witness: an empty dict is falsy and authenticates exactly like
absent custom data. -/
theorem authenticate_falsy_custom_data_witness :
    pyFalsy (JVal.jobj []) = true ∧
    (Config.mk "455" "mykey" "mysecret" "api.pusherapp.com" 80 false).authenticate_subscription
        "presence-bar" "2.2" (some (JVal.jobj [])) =
      (Config.mk "455" "mykey" "mysecret" "api.pusherapp.com" 80
        false).authenticate_subscription "presence-bar" "2.2" none :=
  ⟨rfl, authenticate_falsy_custom_data _ "presence-bar" "2.2" _ rfl⟩

/-- C3: for a valid channel name, `authenticate_subscription` returns a
token whose `auth` field is `key ++ ":" ++ hex(HMAC-SHA256(secret,
stringToSign))`, where `stringToSign` is `socket_id:channel`, extended
with `:customDataJSON` when custom data was serialized; the signature is
exactly 64 lowercase hex characters, and `channel_data` is present
exactly when custom data was supplied and truthy (serialized). -/
theorem authenticate_auth_format (c : Config) (channel socket_id : String)
    (custom_data : Option JVal) (hch : isValidChannelName channel = true) :
    ∃ tok sig, c.authenticate_subscription channel socket_id custom_data = .ok tok ∧
      sig = hexdigest (hmacSha256 (strBytes c.secret)
        (strBytes (stringToSign socket_id channel custom_data))) ∧
      tok.auth = c.key ++ ":" ++ sig ∧
      sig.length = 64 ∧ (∀ ch ∈ sig.data, isHexLowerChar ch = true) ∧
      tok.channel_data = serializedData custom_data ∧
      ((serializedData custom_data).isSome = true ↔
        ∃ v, custom_data = some v ∧ pyFalsy v = false) := by
  have hok : c.authenticate_subscription channel socket_id custom_data =
      .ok { auth := c.key ++ ":" ++ hexdigest (hmacSha256 (strBytes c.secret)
              (strBytes (stringToSign socket_id channel custom_data))),
            channel_data := serializedData custom_data } := by
    unfold Config.authenticate_subscription
    rw [if_neg (by simp [hch])]
  refine ⟨_, _, hok, rfl, rfl, hexdigest_hmac_length _ _,
    hexdigest_lower _ (hmac_lt _ _), rfl, ?_⟩
  constructor
  · intro hs
    cases custom_data with
    | none => simp [serializedData] at hs
    | some v =>
      refine ⟨v, rfl, ?_⟩
      cases hpf : pyFalsy v with
      | false => rfl
      | true => simp [serializedData, hpf] at hs
  · rintro ⟨v, rfl, hf⟩
    simp [serializedData, hf, jsonEncode_ne_empty v]

/-- C3 witness: the theorem evaluated at the spec's scenario 3 inputs. -/
theorem authenticate_auth_format_witness :
    isValidChannelName "private-foo" = true ∧
    ∃ tok sig,
      (Config.mk "455" "mykey" "mysecret" "api.pusherapp.com" 80 false).authenticate_subscription
        "private-foo" "123.456" none = .ok tok ∧
      sig = hexdigest (hmacSha256 (strBytes "mysecret")
        (strBytes (stringToSign "123.456" "private-foo" none))) ∧
      tok.auth = "mykey" ++ ":" ++ sig ∧
      sig.length = 64 ∧ (∀ ch ∈ sig.data, isHexLowerChar ch = true) ∧
      tok.channel_data = serializedData none ∧
      ((serializedData (none : Option JVal)).isSome = true ↔
        ∃ v, (none : Option JVal) = some v ∧ pyFalsy v = false) :=
  ⟨by decide, authenticate_auth_format _ "private-foo" "123.456" none (by decide)⟩

/-! ### Claims C1 and C8: `validate_webhook` -/

/-- On a nonempty first argument the fallback `compare_digest` never
raises and decides equality (unequal lengths included). -/
theorem compare_digest_ok (a b : String) (ha : a ≠ "") :
    compare_digest a b = .ok (decide (a = b)) := by
  by_cases hl : a.length = b.length
  · exact compare_digest_spec a b hl ha
  · unfold compare_digest
    rw [if_pos hl]
    congr 1
    symm
    rw [decide_eq_false_iff_not]
    intro hab
    exact hl (hab ▸ rfl)

/-- C1 (amended): `validate_webhook` returns the parsed payload iff the
key matches, the signature equals the hex HMAC-SHA256 of the body, the
body decodes to a JSON object whose `time_ms` is present, truthy and
numeric, and `|now - time_ms| <= 300000`; it raises instead of returning
null when the key and signature are valid but the body decodes to a
non-object (`AttributeError`) or to an object whose `time_ms` is truthy
yet non-numeric (`TypeError`); in every other case it returns null. -/
theorem validate_webhook_spec (c : Config) (decode : String → Option JVal) (now : Int)
    (key signature body : String) :
    (∀ p, c.validate_webhook decode now key signature body = .ok (some p) ↔
      (key = c.key ∧
       signature = hexdigest (hmacSha256 (strBytes c.secret) (strBytes body)) ∧
       ∃ fields, decode body = some (.jobj fields) ∧ p = .jobj fields ∧
         ∃ t, fields.lookup "time_ms" = some t ∧ pyFalsy t = false ∧
           ∃ n, jNumber t = some n ∧ (now - n).natAbs ≤ 300000)) ∧
    (∀ e, c.validate_webhook decode now key signature body = .error e ↔
      (key = c.key ∧
       signature = hexdigest (hmacSha256 (strBytes c.secret) (strBytes body)) ∧
       ((∃ v, decode body = some v ∧ isJObj v = false ∧ e = .attributeError) ∨
        (∃ fields t, decode body = some (.jobj fields) ∧
          fields.lookup "time_ms" = some t ∧ pyFalsy t = false ∧ jNumber t = none ∧
          e = .typeError)))) := by
  simp only [Config.validate_webhook]
  by_cases hk : key = c.key
  case neg =>
    rw [if_pos hk]
    exact ⟨fun p => by simp [hk], fun e => by simp [hk]⟩
  case pos =>
    rw [if_neg (fun hne => hne hk)]
    rw [compare_digest_ok _ signature (hexdigest_hmac_ne_empty _ _)]
    by_cases hs : hexdigest (hmacSha256 (strBytes c.secret) (strBytes body)) = signature
    case neg =>
      have hs2 : ¬ (signature = hexdigest (hmacSha256 (strBytes c.secret) (strBytes body))) :=
        fun h => hs h.symm
      rw [decide_eq_false hs]
      exact ⟨fun p => by simp [hk, hs2], fun e => by simp [hk, hs2]⟩
    case pos =>
      rw [decide_eq_true hs]
      have hs2 : signature = hexdigest (hmacSha256 (strBytes c.secret) (strBytes body)) :=
        hs.symm
      cases hd : decode body with
      | none => exact ⟨fun p => by simp [hk, hs2, hd], fun e => by simp [hk, hs2, hd]⟩
      | some v =>
        cases v with
        | jobj fields =>
          cases hl : fields.lookup "time_ms" with
          | none =>
            exact ⟨fun p => by simp [hk, hs2, hd, hl],
              fun e => by simp [hk, hs2, hd, hl, isJObj]⟩
          | some t =>
            by_cases hf : pyFalsy t = true
            · exact ⟨fun p => by simp [hk, hs2, hd, hl, hf],
                fun e => by simp [hk, hs2, hd, hl, hf, isJObj]⟩
            · have hf2 : pyFalsy t = false := by
                cases hpf : pyFalsy t
                · rfl
                · exact absurd hpf hf
              cases hn : jNumber t with
              | none =>
                refine ⟨fun p => by simp [hk, hs2, hd, hl, hf2, hn], fun e => ?_⟩
                simp [hk, hs2, hd, hl, hf2, hn, isJObj]
                exact eq_comm
              | some n =>
                by_cases hw : (now - n).natAbs > 300000
                · refine ⟨fun p => ?_, fun e => ?_⟩
                  · simp [hk, hs2, hd, hl, hf2, hn, hw]
                  · simp [hk, hs2, hd, hl, hf2, hn, hw, isJObj]
                · refine ⟨fun p => ?_, fun e => ?_⟩
                  · simp [hk, hs2, hd, hl, hf2, hn, hw]
                    constructor
                    · rintro rfl
                      exact ⟨rfl, by omega⟩
                    · rintro ⟨rfl, _⟩
                      rfl
                  · simp [hk, hs2, hd, hl, hf2, hn, hw, isJObj]
        | jnull =>
          refine ⟨fun p => by simp [hk, hs2, hd], fun e => ?_⟩
          simp [hk, hs2, hd, isJObj]
          exact eq_comm
        | jbool b =>
          refine ⟨fun p => by simp [hk, hs2, hd], fun e => ?_⟩
          simp [hk, hs2, hd, isJObj]
          exact eq_comm
        | jnum m =>
          refine ⟨fun p => by simp [hk, hs2, hd], fun e => ?_⟩
          simp [hk, hs2, hd, isJObj]
          exact eq_comm
        | jstr s =>
          refine ⟨fun p => by simp [hk, hs2, hd], fun e => ?_⟩
          simp [hk, hs2, hd, isJObj]
          exact eq_comm
        | jarr xs =>
          refine ⟨fun p => by simp [hk, hs2, hd], fun e => ?_⟩
          simp [hk, hs2, hd, isJObj]
          exact eq_comm

/-- C1 counterexample: the claim says every case other than a fully valid
webhook returns null, but with a matching key and a correct signature
over a body that decodes to an object whose `time_ms` is the truthy
non-number `"x"`, `validate_webhook` raises a `TypeError` (from
`time.time()*1000 - time_ms`) and returns neither a payload nor null. -/
theorem validate_webhook_counterexample :
    (Config.mk "1" "key" "secret" "api.pusherapp.com" 80 false).validate_webhook
        exampleDecode1 0 "key"
        (hexdigest (hmacSha256 (strBytes "secret") (strBytes exampleBody1))) exampleBody1
      = .error .typeError ∧
    ∀ r, (Config.mk "1" "key" "secret" "api.pusherapp.com" 80 false).validate_webhook
        exampleDecode1 0 "key"
        (hexdigest (hmacSha256 (strBytes "secret") (strBytes exampleBody1))) exampleBody1
      ≠ .ok r := by
  have hcd := compare_digest_self
    (hexdigest (hmacSha256 (strBytes "secret") (strBytes exampleBody1)))
    (hexdigest_hmac_ne_empty _ _)
  have h1 : (Config.mk "1" "key" "secret" "api.pusherapp.com" 80 false).validate_webhook
      exampleDecode1 0 "key"
      (hexdigest (hmacSha256 (strBytes "secret") (strBytes exampleBody1))) exampleBody1
      = .error .typeError := by
    simp [Config.validate_webhook, hcd, exampleDecode1, pyFalsy, jNumber, List.lookup]
  exact ⟨h1, fun r hr => by rw [h1] at hr; exact Except.noConfusion hr⟩

/-- C8: with a matching key and a correct signature over a body that
decodes to an object whose `time_ms` is the truthy non-number `[1]`,
`validate_webhook` raises a `TypeError` instead of returning a value,
contradicting the never-raises design of the spec. -/
theorem validate_webhook_nonnumeric_raises :
    (Config.mk "1" "key" "secret" "api.pusherapp.com" 80 false).validate_webhook
        exampleDecode8 0 "key"
        (hexdigest (hmacSha256 (strBytes "secret") (strBytes exampleBody8))) exampleBody8
      = .error .typeError := by
  have hcd := compare_digest_self
    (hexdigest (hmacSha256 (strBytes "secret") (strBytes exampleBody8)))
    (hexdigest_hmac_ne_empty _ _)
  simp [Config.validate_webhook, hcd, exampleDecode8, pyFalsy, jNumber, List.lookup]

/-! ### Claims C6 and C7: the URL pattern -/

theorem greedySplit_none {α : Type} (k : List Char → Option α) (l : List Char)
    (h : ∀ suf, suf <:+ l → k suf = none) : greedySplit k l = none := by
  induction l with
  | nil =>
    unfold greedySplit
    rw [h [] List.nil_suffix]
    rfl
  | cons c cs ih =>
    unfold greedySplit
    by_cases hc : c = '\n'
    · rw [if_pos hc, h (c :: cs) (List.suffix_refl _)]
      rfl
    · rw [if_neg hc, ih (fun suf hs => h suf (hs.trans (List.suffix_cons c cs)))]
      rw [h (c :: cs) (List.suffix_refl _)]
      rfl

/-- Greedy dot-star splitting at the unique viable split point: if `k`
succeeds on `suf` and fails on every strictly shorter suffix, and the
consumed part has no newline, the greedy split consumes exactly `pre`. -/
theorem greedySplit_eq {α : Type} (k : List Char → Option α) (pre suf : List Char) (a : α)
    (hpre : ('\n' : Char) ∉ pre) (hk : k suf = some a)
    (hmin : ∀ suf2, suf2 <:+ pre ++ suf → suf2.length < suf.length → k suf2 = none) :
    greedySplit k (pre ++ suf) = some (pre, a) := by
  induction pre with
  | nil =>
    simp only [List.nil_append]
    cases suf with
    | nil =>
      unfold greedySplit
      rw [hk]
      rfl
    | cons c cs =>
      have hnone : greedySplit k cs = none := by
        apply greedySplit_none
        intro s hs
        exact hmin s (by simpa using hs.trans (List.suffix_cons c cs))
          (lt_of_le_of_lt hs.length_le (by simp))
      unfold greedySplit
      by_cases hc : c = '\n'
      · rw [if_pos hc, hk]
        rfl
      · rw [if_neg hc, hnone, hk]
        rfl
  | cons c pre' ih =>
    have hc : c ≠ '\n' := fun h => hpre (h ▸ List.mem_cons_self c pre')
    simp only [List.cons_append]
    unfold greedySplit
    rw [if_neg hc]
    rw [ih (fun hmem => hpre (List.mem_cons_of_mem c hmem))
      (fun suf2 hs hlen => hmin suf2 (by
        simpa using hs.trans (List.suffix_cons c (pre' ++ suf))) hlen)]

theorem suffix_eq_of_length_eq {α : Type} {l s1 s2 : List α} (h1 : s1 <:+ l) (h2 : s2 <:+ l)
    (hl : s1.length = s2.length) : s1 = s2 := by
  obtain ⟨p1, rfl⟩ := h1
  obtain ⟨p2, hp⟩ := h2
  have hlen : p2.length = p1.length := by
    have := congrArg List.length hp
    simp only [List.length_append] at this
    omega
  exact (List.append_inj_right hp hlen).symm

theorem suffix_of_suffix_length_le {α : Type} {l s1 s2 : List α} (h1 : s1 <:+ l)
    (h2 : s2 <:+ l) (hl : s1.length ≤ s2.length) : s1 <:+ s2 := by
  have hd : s2.drop (s2.length - s1.length) <:+ s2 := List.drop_suffix _ _
  have h3 : s2.drop (s2.length - s1.length) <:+ l := hd.trans h2
  have := suffix_eq_of_length_eq h1 h3 (by simp [List.length_drop]; omega)
  rw [this]
  exact hd

theorem suffix_append_cases {α : Type} {l l1 l2 : List α} (h : l <:+ l1 ++ l2) :
    l <:+ l2 ∨ ∃ t, t <:+ l1 ∧ l = t ++ l2 := by
  obtain ⟨p, hp⟩ := h
  by_cases hl : l.length ≤ l2.length
  · exact Or.inl (suffix_of_suffix_length_le ⟨p, hp⟩ (List.suffix_append l1 l2) hl)
  · push_neg at hl
    have hdl : l.drop (l.length - l2.length) = l2 := by
      apply suffix_eq_of_length_eq ((List.drop_suffix _ _).trans ⟨p, hp⟩)
        (List.suffix_append l1 l2)
      simp only [List.length_drop]
      omega
    have hl2 : l = l.take (l.length - l2.length) ++ l2 := by
      conv_lhs => rw [← List.take_append_drop (l.length - l2.length) l]
      rw [hdl]
    have hass : (p ++ l.take (l.length - l2.length)) ++ l2 = l1 ++ l2 := by
      rw [List.append_assoc, ← hl2, hp]
    have hpt : p ++ l.take (l.length - l2.length) = l1 := (List.append_inj' hass rfl).1
    exact Or.inr ⟨l.take (l.length - l2.length), ⟨p, hpt⟩, hl2⟩

theorem digit_ne {c d : Char} (h : c.isDigit = true) (hd : d.isDigit = false) : c ≠ d := by
  intro hc
  rw [hc] at h
  rw [h] at hd
  exact Bool.noConfusion hd

theorem pApps_full (D : List Char) (hD : D ≠ []) (hdig : ∀ c ∈ D, c.isDigit) :
    pApps ("/apps/".data ++ D) = some (String.mk D) := by
  unfold pApps
  rw [if_pos (show List.take 6 ("/apps/".data ++ D) = "/apps/".data from
        List.take_left "/apps/".data D),
      show List.drop 6 ("/apps/".data ++ D) = D from List.drop_left "/apps/".data D]
  rw [List.takeWhile_eq_self_iff.mpr hdig]
  rw [if_neg (by simpa using hD)]

theorem pApps_suffix_none (D : List Char) (hdig : ∀ c ∈ D, c.isDigit) :
    ∀ suf, suf <:+ "apps/".data ++ D → pApps suf = none := by
  have hstep : ∀ t D2, (∀ c ∈ D2, c.isDigit = true) → t <:+ "apps/".data →
      pApps (t ++ D2) = none := by
    intro t D2 hdig2 ht
    have := (List.mem_tails t "apps/".data).mpr ht
    unfold pApps
    fin_cases this <;>
      (cases D2 with
       | nil => rfl
       | cons d D' =>
         rw [if_neg ?_]
         intro heq
         have hdigd : d.isDigit = true := hdig2 d (List.mem_cons_self d D')
         simp only [List.cons_append, List.nil_append, List.take_succ_cons,
           List.cons.injEq, true_and] at heq
         first
         | exact absurd heq.1 (by decide)
         | exact absurd heq.1 (digit_ne hdigd (by decide)))
  intro suf hs
  rcases suffix_append_cases hs with h | ⟨t, ht, rfl⟩
  · obtain ⟨p, rfl⟩ := h
    have := hstep [] suf (fun c hc => hdig c (List.mem_append.mpr (Or.inr hc)))
      List.nil_suffix
    simpa using this
  · exact hstep t _ (fun c hc => hdig c hc) ht

theorem pHost_full (H D : List Char) (hH : ('\n' : Char) ∉ H) (hD : D ≠ [])
    (hdig : ∀ c ∈ D, c.isDigit) :
    pHost (H ++ ("/apps/".data ++ D)) = some (String.mk H, String.mk D) := by
  unfold pHost
  rw [greedySplit_eq pApps H ("/apps/".data ++ D) (String.mk D) hH
    (pApps_full D hD hdig) ?_]
  · rfl
  · intro suf2 hs2 hlen
    have hsuf : suf2 <:+ "/apps/".data ++ D :=
      suffix_of_suffix_length_le hs2 (List.suffix_append H _) (le_of_lt hlen)
    have hsuf2 : suf2 <:+ "apps/".data ++ D := by
      rcases List.suffix_cons_iff.mp
          (show suf2 <:+ '/' :: ("apps/".data ++ D) from hsuf) with he | h2
      · exfalso
        rw [he] at hlen
        simp [List.length_append] at hlen
      · exact h2
    exact pApps_suffix_none D hdig suf2 hsuf2

theorem pHostStep_none (s : List Char) (hs : ('@' : Char) ∉ s) : pHostStep s = none := by
  cases s with
  | nil => rfl
  | cons c t =>
    have hc : c ≠ '@' := fun h => hs (h ▸ List.mem_cons_self c t)
    unfold pHostStep
    split
    · next t2 heq =>
      injection heq with h1 h2
      exact absurd h1 hc
    · rfl

theorem pSecretStep_none (s : List Char) (hs : (':' : Char) ∉ s) : pSecretStep s = none := by
  cases s with
  | nil => rfl
  | cons c t =>
    have hc : c ≠ ':' := fun h => hs (h ▸ List.mem_cons_self c t)
    unfold pSecretStep
    split
    · next t2 heq =>
      injection heq with h1 h2
      exact absurd h1 hc
    · rfl

theorem pSecret_full (S H D : List Char) (hS : ('\n' : Char) ∉ S) (hH : ('\n' : Char) ∉ H)
    (hHat : ('@' : Char) ∉ H) (hD : D ≠ []) (hdig : ∀ c ∈ D, c.isDigit) :
    pSecret (S ++ ('@' :: (H ++ ("/apps/".data ++ D)))) =
      some (String.mk S, String.mk H, String.mk D) := by
  have hnotat : ('@' : Char) ∉ H ++ ("/apps/".data ++ D) := by
    intro hmem
    rcases List.mem_append.mp hmem with h | h
    · exact hHat h
    · rcases List.mem_append.mp h with h2 | h2
      · exact absurd h2 (by decide)
      · exact absurd (hdig _ h2) (by decide)
  unfold pSecret
  rw [greedySplit_eq pHostStep S ('@' :: (H ++ ("/apps/".data ++ D)))
    (String.mk H, String.mk D) hS (pHost_full H D hH hD hdig) ?_]
  · rfl
  · intro suf2 hs2 hlen
    have h1 : suf2 <:+ '@' :: (H ++ ("/apps/".data ++ D)) :=
      suffix_of_suffix_length_le hs2 (List.suffix_append S _) (le_of_lt hlen)
    rcases List.suffix_cons_iff.mp h1 with he | h2
    · exfalso
      rw [he] at hlen
      simp at hlen
    · exact pHostStep_none suf2 (fun hmem => hnotat (h2.subset hmem))

theorem pKey_full (K S H D : List Char) (hK : ('\n' : Char) ∉ K) (hS : ('\n' : Char) ∉ S)
    (hScol : (':' : Char) ∉ S) (hH : ('\n' : Char) ∉ H) (hHat : ('@' : Char) ∉ H)
    (hHcol : (':' : Char) ∉ H) (hD : D ≠ []) (hdig : ∀ c ∈ D, c.isDigit) :
    pKey (K ++ (':' :: (S ++ ('@' :: (H ++ ("/apps/".data ++ D)))))) =
      some (String.mk K, String.mk S, String.mk H, String.mk D) := by
  have hnotcol : (':' : Char) ∉ S ++ ('@' :: (H ++ ("/apps/".data ++ D))) := by
    intro hmem
    rcases List.mem_append.mp hmem with h | h
    · exact hScol h
    · rcases List.mem_cons.mp h with h2 | h2
      · exact absurd h2 (by decide)
      · rcases List.mem_append.mp h2 with h3 | h3
        · exact hHcol h3
        · rcases List.mem_append.mp h3 with h4 | h4
          · exact absurd h4 (by decide)
          · exact absurd (hdig _ h4) (by decide)
  unfold pKey
  rw [greedySplit_eq pSecretStep K (':' :: (S ++ ('@' :: (H ++ ("/apps/".data ++ D)))))
    (String.mk S, String.mk H, String.mk D) hK (pSecret_full S H D hS hH hHat hD hdig) ?_]
  · rfl
  · intro suf2 hs2 hlen
    have h1 : suf2 <:+ ':' :: (S ++ ('@' :: (H ++ ("/apps/".data ++ D)))) :=
      suffix_of_suffix_length_le hs2 (List.suffix_append K _) (le_of_lt hlen)
    rcases List.suffix_cons_iff.mp h1 with he | h2
    · exfalso
      rw [he] at hlen
      simp at hlen
    · exact pSecretStep_none suf2 (fun hmem => hnotcol (h2.subset hmem))

theorem matchUrl_http (rest : List Char) :
    matchUrl ("http://".data ++ rest) = (pKey rest).map (fun g => (false, g)) := by
  unfold matchUrl
  rw [if_pos (show List.take 7 ("http://".data ++ rest) = "http://".data from
        List.take_left "http://".data rest),
      show List.drop 7 ("http://".data ++ rest) = rest from List.drop_left "http://".data rest]

theorem matchUrl_https (rest : List Char) :
    matchUrl ("https://".data ++ rest) = (pKey rest).map (fun g => (true, g)) := by
  have h7 : List.take 7 ("https://".data ++ rest) = "https:/".data := by
    rw [List.take_append_of_le_length (by decide)]
    decide
  unfold matchUrl
  rw [if_neg (by rw [h7]; decide),
      if_pos (show List.take 8 ("https://".data ++ rest) = "https://".data from
        List.take_left "https://".data rest),
      show List.drop 8 ("https://".data ++ rest) = rest from List.drop_left "https://".data rest]

/-- C6 counterexample: the claim's pattern is end-anchored, so
`"http://k:s@h/apps/1x"` must fail; the code's `re.match` has no end
anchor, accepts the trailing `x`, and parses the URL with appId `"1"`. -/
theorem from_url_unanchored_counterexample :
    Config.from_url "http://k:s@h/apps/1x" = .ok ⟨"1", "k", "s", "h", 80, false⟩ ∧
    specUrlShape "http://k:s@h/apps/1x" = false := by
  constructor
  · rfl
  · rfl

/-- C6 (amended): `from_url` succeeds exactly when the unanchored greedy
pattern `(http|https)://(.*):(.*)@(.*)/apps/([0-9]+)` matches a prefix of
the url (trailing characters are allowed and the dot-star groups follow
Python's greedy backtracking, so they may contain `:`, `@` or `/`); on a
match the groups map to key, secret, host and appId, TLS is true iff the
scheme is `https`, an empty host group falls back to the default host,
and the port is the TLS default; otherwise it raises `UnparsableURL`. -/
theorem from_url_spec (url : String) :
    (matchUrl url.data = none → Config.from_url url = .error .unparsableUrl) ∧
    (∀ ssl k s h a, matchUrl url.data = some (ssl, k, s, h, a) →
      Config.from_url url = .ok
        { app_id := a, key := k, secret := s,
          host := if h ≠ "" then h else "api.pusherapp.com",
          port := if ssl then 443 else 80, ssl := ssl }) := by
  constructor
  · intro hm
    unfold Config.from_url
    rw [hm]
  · intro ssl k s h a hm
    unfold Config.from_url
    rw [hm]
    show Config.init a (.vstr k) (.vstr s) (.vbool ssl) (some h) .vnone none = _
    rw [config_init_ok a k s ssl (some h) .vnone none (Or.inl rfl)]
    rfl

/-- C6 witness: the amended theorem evaluated on a failing and on a
succeeding concrete URL. -/
theorem from_url_spec_witness :
    Config.from_url "nourl" = .error .unparsableUrl ∧
    Config.from_url "https://u:p@hh/apps/25x" = .ok ⟨"25", "u", "p", "hh", 443, true⟩ := by
  constructor
  · exact (from_url_spec "nourl").1 rfl
  · exact (from_url_spec "https://u:p@hh/apps/25x").2 true "u" "p" "hh" "25" rfl

theorem string_mk_self (s : String) : String.mk s.data = s := by
  obtain ⟨l⟩ := s
  rfl

/-- C7 counterexample: `Config.__init__` does not validate the app id
(the check is commented out in the source), so `"x"` is a constructible
appId; formatting that config and parsing it back fails with
`UnparsableURL` instead of reconstructing the config. -/
theorem roundtrip_counterexample :
    Config.init "x" (.vstr "k") (.vstr "s") (.vbool false) (some "h") .vnone none =
      .ok ⟨"x", "k", "s", "h", 80, false⟩ ∧
    configUrl ⟨"x", "k", "s", "h", 80, false⟩ = "http://k:s@h/apps/x" ∧
    Config.from_url "http://k:s@h/apps/x" = .error .unparsableUrl := by
  exact ⟨rfl, rfl, rfl⟩

/-- C7 (amended): the round-trip holds for every config whose `app_id` is
a nonempty digit string, whose `secret` contains no `:` or newline, whose
`key` contains no newline, and whose `host` is nonempty and contains no
`:`, `@` or newline (all configs produced by the constructors from
well-formed credentials satisfy this): formatting such a config as
`{scheme}://{key}:{secret}@{host}/apps/{appId}` and applying `from_url`
reconstructs the same key, secret, host, appId and TLS flag. -/
theorem from_url_roundtrip (c : Config)
    (happ0 : c.app_id.data ≠ [])
    (happD : ∀ ch ∈ c.app_id.data, ch.isDigit)
    (hkeyN : ('\n' : Char) ∉ c.key.data)
    (hsecN : ('\n' : Char) ∉ c.secret.data)
    (hsecC : (':' : Char) ∉ c.secret.data)
    (hhN : ('\n' : Char) ∉ c.host.data)
    (hhA : ('@' : Char) ∉ c.host.data)
    (hhC : (':' : Char) ∉ c.host.data)
    (hh0 : c.host ≠ "") :
    ∃ c2, Config.from_url (configUrl c) = .ok c2 ∧
      c2.key = c.key ∧ c2.secret = c.secret ∧ c2.host = c.host ∧
      c2.app_id = c.app_id ∧ c2.ssl = c.ssl := by
  have hdata : (configUrl c).data =
      c.scheme.data ++ ([':', '/', '/'] ++ (c.key.data ++ (':' :: (c.secret.data ++
        ('@' :: (c.host.data ++ ("/apps/".data ++ c.app_id.data))))))) := by
    simp [configUrl, String.data_append, List.append_assoc,
      show "://".data = [':', '/', '/'] from rfl, show ":".data = [':'] from rfl,
      show "@".data = ['@'] from rfl]
  have hkey := pKey_full c.key.data c.secret.data c.host.data c.app_id.data
    hkeyN hsecN hsecC hhN hhA hhC happ0 happD
  simp only [string_mk_self] at hkey
  cases hssl : c.ssl
  case false =>
    have hsch : c.scheme = "http" := by simp [Config.scheme, hssl]
    have hdata2 : (configUrl c).data =
        "http://".data ++ (c.key.data ++ (':' :: (c.secret.data ++
          ('@' :: (c.host.data ++ ("/apps/".data ++ c.app_id.data)))))) := by
      rw [hdata, hsch]
      rfl
    refine ⟨⟨c.app_id, c.key, c.secret, c.host, 80, false⟩, ?_, rfl, rfl, rfl, rfl, rfl⟩
    unfold Config.from_url
    rw [hdata2, matchUrl_http, hkey]
    show Config.init c.app_id (.vstr c.key) (.vstr c.secret) (.vbool false)
      (some c.host) .vnone none = _
    rw [config_init_ok c.app_id c.key c.secret false (some c.host) .vnone none (Or.inl rfl)]
    simp [specResolveHost, specResolvePort, pyTruthyV, hh0]
  case true =>
    have hsch : c.scheme = "https" := by simp [Config.scheme, hssl]
    have hdata2 : (configUrl c).data =
        "https://".data ++ (c.key.data ++ (':' :: (c.secret.data ++
          ('@' :: (c.host.data ++ ("/apps/".data ++ c.app_id.data)))))) := by
      rw [hdata, hsch]
      rfl
    refine ⟨⟨c.app_id, c.key, c.secret, c.host, 443, true⟩, ?_, rfl, rfl, rfl, rfl, rfl⟩
    unfold Config.from_url
    rw [hdata2, matchUrl_https, hkey]
    show Config.init c.app_id (.vstr c.key) (.vstr c.secret) (.vbool true)
      (some c.host) .vnone none = _
    rw [config_init_ok c.app_id c.key c.secret true (some c.host) .vnone none (Or.inl rfl)]
    simp [specResolveHost, specResolvePort, pyTruthyV, hh0]

/-- C7 witness: the amended round-trip evaluated on a concrete config. -/
theorem from_url_roundtrip_witness :
    ∃ c2, Config.from_url (configUrl ⟨"77", "wk", "ws", "why.example.com", 80, false⟩) =
        .ok c2 ∧
      c2.key = "wk" ∧ c2.secret = "ws" ∧ c2.host = "why.example.com" ∧
      c2.app_id = "77" ∧ c2.ssl = false := by
  exact from_url_roundtrip ⟨"77", "wk", "ws", "why.example.com", 80, false⟩
    (by decide) (by decide) (by decide) (by decide) (by decide) (by decide)
    (by decide) (by decide) (by decide)
